import Mathlib

/-!
Verification of the hopsfs-go-mount filesystem mediation engine.

This file shallowly embeds the parts of the source that the claims are
about: the error translation adapter and retriability classification
(`internal/hopsfsmount/File.go`), the flush/upload loop of a file handle
(`FileHandle.copyToDFS` / `Flush`), the FileINode proxy state machine
(`NewFileHandle` / `upgradeHandleForWriting` / `RemoveHandle` /
`closeStaging`), directory operations (`Mkdir`, `ReadDirAll`,
`LookupInt`, `Attr` in `Dir.go`), the remote read-only proxy
(`RemoteROFileProxy.ReadAt`), the allow-list (`FileSystem.IsPathAllowed`)
and the root inode construction (`FileSystem.Root`).

Go error values are modelled by the inductive `GoErr`; machine integers
by `Int`/`Nat` (no operation here can overflow int64); time by `Int`
(Go `time.Time`, zero value `0`, `After` is `>`).
-/

/-- Numeric errno kinds used by the program (`syscall.E...`). -/
inductive Errno
  | ENOENT | EPERM | EEXIST | EBADF | EIO | EACCES | ENOTEMPTY
  | EROFS | EDQUOT | ENOLINK | EINVAL | ENOSPC | ENOTSUP
  | otherE (n : Nat)
deriving DecidableEq, Repr

/-- Go `error` values that flow through the adapter.  `syscallE`
models a `syscall.Errno`, `fuseE` a `fuse.Errno` (distinct Go interface
values even for the same number), `pathError` an `*os.PathError`
wrapping an inner error, the four `osErr...` constructors are the
sentinel values `os.ErrNotExist`/`os.ErrPermission`/`os.ErrExist`/
`os.ErrClosed`, `eof` is `io.EOF`, and `other n` any other error
value. -/
inductive GoErr
  | syscallE (e : Errno)
  | fuseE (e : Errno)
  | pathError (inner : GoErr)
  | osErrNotExist | osErrPermission | osErrExist | osErrClosed
  | eof
  | other (n : Nat)
deriving DecidableEq, Repr

/-- `isFuseOrSyscallError` from File.go: true exactly for
`syscall.Errno`/`fuse.Errno` typed errors (value or pointer). -/
def isFuseOrSyscallError : GoErr → Bool
  | .syscallE _ => true
  | .fuseE _ => true
  | _ => false

/-- `unwrapAndTranslateError` from File.go: errno-typed errors pass
through; an `*os.PathError` is unwrapped one level; the unwrapped value
is mapped `os.ErrNotExist → ENOENT`, `os.ErrPermission → EPERM`,
`os.ErrExist → EEXIST`, `os.ErrClosed → EBADF`; `io.EOF` passes
through; anything else becomes `syscall.EIO`. -/
def unwrapAndTranslateError (err : GoErr) : GoErr :=
  if isFuseOrSyscallError err then err
  else
    let e := match err with
             | .pathError inner => inner
             | _ => err
    if isFuseOrSyscallError e then e
    else if e = .osErrNotExist then .syscallE .ENOENT
    else if e = .osErrPermission then .syscallE .EPERM
    else if e = .osErrExist then .syscallE .EEXIST
    else if e = .osErrClosed then .syscallE .EBADF
    else if e = .eof then e
    else .syscallE Errno.EIO

/-- `isNonRetriableError` from File.go, the literal disjunction of
comparisons (`fuse.EEXIST` and `syscall.EEXIST` are distinct Go
interface values and both appear in the source). -/
def isNonRetriableError (err : GoErr) : Bool :=
  err = .eof ||
  err = .fuseE .EEXIST ||
  err = .syscallE .ENOENT ||
  err = .syscallE .EACCES ||
  err = .syscallE .ENOTEMPTY ||
  err = .syscallE .EEXIST ||
  err = .syscallE .EROFS ||
  err = .syscallE .EDQUOT ||
  err = .syscallE .ENOLINK ||
  err = .osErrNotExist ||
  err = .osErrPermission ||
  err = .osErrExist ||
  err = .osErrClosed

/-- `IsSuccessOrNonRetriableError` from File.go; `none` models a nil
error. -/
def IsSuccessOrNonRetriableError : Option GoErr → Bool
  | none => true
  | some err => isNonRetriableError (unwrapAndTranslateError err)

/-- Spec-side restatement of the translation adapter, written from the
spec's words ("path-wrapped OS errors are first unwrapped;
os.ErrNotExist maps to ENOENT, os.ErrPermission to EPERM, os.ErrExist
to EEXIST, os.ErrClosed to EBADF; EOF passes through unchanged;
errno-typed errors pass through unchanged; every other error becomes
EIO"), to be compared with `unwrapAndTranslateError`. -/
def translateErrorSpec (err : GoErr) : GoErr :=
  let e := match err with
           | .pathError inner => inner
           | _ => err
  match e with
  | .syscallE k => .syscallE k
  | .fuseE k => .fuseE k
  | .osErrNotExist => .syscallE .ENOENT
  | .osErrPermission => .syscallE .EPERM
  | .osErrExist => .syscallE .EEXIST
  | .osErrClosed => .syscallE .EBADF
  | .eof => .eof
  | _ => .syscallE Errno.EIO

/-- The spec's list of non-retriable error values: EOF, EEXIST (in both
its fuse and syscall representations), ENOENT, EACCES, ENOTEMPTY,
EROFS, EDQUOT, ENOLINK, together with the four host-OS sentinel
values. -/
def nonRetriableSet : List GoErr :=
  [.eof,
   .fuseE .EEXIST, .syscallE .EEXIST,
   .syscallE .ENOENT, .syscallE .EACCES, .syscallE .ENOTEMPTY,
   .syscallE .EROFS, .syscallE .EDQUOT, .syscallE .ENOLINK,
   .osErrNotExist, .osErrPermission, .osErrExist, .osErrClosed]

/-! ### FileHandle flush / upload loop (`src/unnamed/part_012`) -/

/-- The mutable per-handle state relevant to flush: the
`totalBytesWritten` counter of a `FileHandle` (int64). -/
structure FHState where
  totalBytesWritten : Int
deriving DecidableEq, Repr

/-- `FileHandle.dataChanged`. -/
def dataChanged (fh : FHState) : Bool :=
  fh.totalBytesWritten > 0

/-- The loop guard of `FileHandle.copyToDFS`:
`err != io.EOF || IsSuccessOrNonRetriableError(err) ||
!op.ShouldRetry(...)`; when it is true the loop returns `err`,
otherwise it closes the DFS client and retries. -/
def copyGuard (err : Option GoErr) (shouldRetry : Bool) : Bool :=
  err ≠ some .eof || IsSuccessOrNonRetriableError err || !shouldRetry

/-- The retry loop of `FileHandle.copyToDFS`, driven by the injected
result of each `FlushAttempt` (`none` = success) and by the retry
policy's `ShouldRetry` answers (indexed by attempt number).  Returns
`(attempts, connectionCloses, result)`; `none` if the loop would
consume more attempt results than supplied. -/
def copyToDFSLoop : List (Option GoErr) → (Nat → Bool) → Nat → Nat →
    Option (Nat × Nat × Option GoErr)
  | [], _, _, _ => none
  | err :: rest, retryAns, attempts, closes =>
      if copyGuard err (retryAns (attempts + 1)) then
        some (attempts + 1, closes, err)
      else
        copyToDFSLoop rest retryAns (attempts + 1) (closes + 1)

/-- `FileHandle.copyToDFS`: returns immediately (no attempt, no DFS
operation) when `totalBytesWritten == 0`, otherwise runs the retry
loop.  The handle state is returned unchanged: no code path resets
`totalBytesWritten`. -/
def copyToDFS (fh : FHState) (attemptResults : List (Option GoErr))
    (retryAns : Nat → Bool) : Option (Nat × Nat × Option GoErr) × FHState :=
  if fh.totalBytesWritten = 0 then (some (0, 0, none), fh)
  else (copyToDFSLoop attemptResults retryAns 0 0, fh)

/-- `FileHandle.Flush`: if `dataChanged()` then `copyToDFS`, else
return nil without any DFS operation. -/
def flushFH (fh : FHState) (attemptResults : List (Option GoErr))
    (retryAns : Nat → Bool) : Option (Nat × Nat × Option GoErr) × FHState :=
  if dataChanged fh then copyToDFS fh attemptResults retryAns
  else (some (0, 0, none), fh)

/-! ### FileINode proxy state machine (`internal/hopsfsmount/File.go`) -/

/-- The two `FileProxy` variants of a `FileINode`:
`LocalRWFileProxy` (local staging file) and `RemoteROFileProxy`
(remote read stream). -/
inductive Proxy
  | localRW
  | remoteRO
deriving DecidableEq, Repr

/-- The state of a `FileINode` relevant to the handle/proxy claims:
the number of entries of `activeHandles` and the `fileProxy` field
(`none` = Go nil). -/
structure FNState where
  handles : Nat
  fileProxy : Option Proxy
deriving DecidableEq, Repr

/-- One assignment `file.fileProxy = v` performed by an operation,
recorded as (value before, value after). -/
abbrev ProxyAssign := Option Proxy × Option Proxy

/-- The FileINode operations the claims quantify over, with their
injected failure points: `open` carries the result of
`getDFSConnector().OpenRead` (used only when no proxy is shared),
`create` the combined result of the disk-space check and
`createStagingFile`, and `upgrade` the results of `checkDiskSpace`
and `createStagingFile` inside `upgradeHandleForWriting`. -/
inductive FileOp
  | openOp (openReadOk : Bool)
  | createOp (stagingOk : Bool)
  | upgradeOp (diskOk : Bool) (stagingOk : Bool)
  | releaseOp
deriving DecidableEq, Repr

/-- `FileINode.Open` / `NewFileHandle(existsInDFS=true)` followed by
`AddHandle` on success: share the existing proxy if present (the source
performs the self-assignment `fh.File.fileProxy = file.fileProxy`),
otherwise open a remote reader and install a `RemoteROFileProxy`; on
`OpenRead` failure nothing changes and no handle is added. -/
def stepOpen (s : FNState) (openReadOk : Bool) :
    FNState × Bool × List ProxyAssign :=
  match s.fileProxy with
  | some p => ({ s with handles := s.handles + 1 }, true, [(some p, some p)])
  | none =>
      if openReadOk then
        ({ handles := s.handles + 1, fileProxy := some .remoteRO }, true,
         [(none, some .remoteRO)])
      else (s, false, [])

/-- `NewFileHandle(existsInDFS=false)` (the create path) followed by
`AddHandle` on success: the source panics if a proxy already exists
(modelled as failure with no state change); otherwise the disk-space
check and staging-file creation either fail (no change) or install a
`LocalRWFileProxy`. -/
def stepCreate (s : FNState) (stagingOk : Bool) :
    FNState × Bool × List ProxyAssign :=
  match s.fileProxy with
  | some _ => (s, false, [])
  | none =>
      if stagingOk then
        ({ handles := s.handles + 1, fileProxy := some .localRW }, true,
         [(none, some .localRW)])
      else (s, false, [])

/-- `FileINode.upgradeHandleForWriting`: no-op for `LocalRWFileProxy`;
for `RemoteROFileProxy` the reader is closed and `fileProxy` set to nil
first, then the disk-space check and staging-file creation either fail
(returning the error with `fileProxy` still nil) or install a
`LocalRWFileProxy`; a nil proxy hits `logger.Panic` (modelled as
failure with no state change). -/
def stepUpgrade (s : FNState) (diskOk stagingOk : Bool) :
    FNState × Bool × List ProxyAssign :=
  match s.fileProxy with
  | some .localRW => (s, true, [])
  | some .remoteRO =>
      if diskOk then
        if stagingOk then
          ({ s with fileProxy := some .localRW }, true,
           [(some .remoteRO, none), (none, some .localRW)])
        else ({ s with fileProxy := none }, false, [(some .remoteRO, none)])
      else ({ s with fileProxy := none }, false, [(some .remoteRO, none)])
  | none => (s, false, [])

/-- `FileHandle.Release` → `FileINode.RemoveHandle`: remove the handle;
when the last handle leaves, `closeStaging` sets `fileProxy` to nil. -/
def stepRelease (s : FNState) : FNState × Bool × List ProxyAssign :=
  let h := s.handles - 1
  if h = 0 then
    match s.fileProxy with
    | some p => ({ handles := 0, fileProxy := none }, true, [(some p, none)])
    | none => ({ handles := 0, fileProxy := none }, true, [])
  else ({ s with handles := h }, true, [])

/-- One step of the FileINode state machine. -/
def fileStep (s : FNState) : FileOp → FNState × Bool × List ProxyAssign
  | .openOp ok => stepOpen s ok
  | .createOp ok => stepCreate s ok
  | .upgradeOp d st => stepUpgrade s d st
  | .releaseOp => stepRelease s

/-- Execute a sequence of operations, returning the final state. -/
def fileRun (s : FNState) : List FileOp → FNState
  | [] => s
  | op :: rest => fileRun (fileStep s op).1 rest

/-- The quiescent-point invariant of claim C3: with at least one handle
the proxy is present, with zero handles it is absent. -/
def handleProxyInv (s : FNState) : Prop :=
  (1 ≤ s.handles → s.fileProxy ≠ none) ∧ (s.handles = 0 → s.fileProxy = none)

/-- The allowed `fileProxy` transition set of claim C4 (a non-changing
assignment is not a transition). -/
def allowedTransition (a : ProxyAssign) : Prop :=
  a.1 = a.2 ∨
  a.2 = none ∨
  (a.1 = none ∧ a.2 = some .remoteRO) ∨
  (a.1 = none ∧ a.2 = some .localRW) ∨
  (a.1 = some .remoteRO ∧ a.2 = some .localRW)

instance (a : ProxyAssign) : Decidable (allowedTransition a) := by
  unfold allowedTransition
  infer_instance

/-- True when the operation is not a failing write upgrade. -/
def upgradeSucceeds : FileOp → Prop
  | .upgradeOp d st => d = true ∧ st = true
  | _ => True

/-- The initial state of a fresh FileINode: no handles, nil proxy. -/
def initFN : FNState := { handles := 0, fileProxy := none }

/-! ### Directory operations (`internal/hopsfsmount/Dir.go`),
allow-list and root (`src/unnamed/part_014`) -/

/-- The fields of `Attrs` that directory operations construct or
compare.  `isDir` models the `os.ModeDir` bit of `Mode`. -/
structure AttrsM where
  name : String
  isDir : Bool
  mode : Nat
  uid : Nat
  gid : Nat
  dfsUserName : String
  dfsGroupName : String
deriving DecidableEq, Repr

/-- DFS RPCs issued by an operation (the `HdfsAccessor` calls). -/
inductive DfsCall
  | mkdirC (p : String)
  | chownC (p : String)
  | removeC (p : String)
  | statC (p : String)
deriving DecidableEq, Repr

/-- `DirINode.AbsolutePathForChild` = Go `path.Join(dir.AbsolutePath(),
name)`, specialised to a clean absolute directory path and a simple
child name (no slash, not "." or ".."), the only shape produced by the
FUSE layer and DFS listings. -/
def joinChild (dirPath name : String) : String :=
  if dirPath = "/" then "/" ++ name else dirPath ++ "/" ++ name

/-- One character list is an initial segment of another. -/
def listInitSeg : List Char → List Char → Bool
  | [], _ => true
  | _ :: _, [] => false
  | c :: cs, d :: ds => c = d && listInitSeg cs ds

/-- Go `strings.HasPrefix(s, p)`: `p` is an initial segment of `s`
(modelled on the character lists so that it is kernel-computable). -/
def goHasPre (s p : String) : Bool := listInitSeg p.data s.data

/-- `FileSystem.IsPathAllowed` from `src/unnamed/part_014`. -/
def IsPathAllowed (allowedPrefixes : List String) (p : String) : Bool :=
  if p = "/" then true
  else allowedPrefixes.any fun q =>
    q = "*" || "/" ++ q = p || goHasPre p ("/" ++ q ++ "/")

/-- `addOrUpdateChildInodeAttrs` on the children map (modelled as an
association list): update the attributes if the name is present,
otherwise append a new child. -/
def upsertChild (children : List (String × AttrsM)) (name : String)
    (a : AttrsM) : List (String × AttrsM) :=
  match children with
  | [] => [(name, a)]
  | (n, b) :: rest =>
      if n = name then (n, a) :: rest else (n, b) :: upsertChild rest name a

/-- `removeChildInode`: delete the name from the children map. -/
def removeChild (children : List (String × AttrsM)) (name : String) :
    List (String × AttrsM) :=
  children.filter fun c => c.1 ≠ name

/-- The injected results of the collaborators consulted by
`DirINode.Mkdir`: the identity-cache lookups `getUserName` /
`getGroupName` and the DFS `Mkdir` and `Chown` calls. -/
structure MkdirEnv where
  userRes : Except GoErr String
  groupRes : Except GoErr String
  mkdirErr : Option GoErr
  chownErr : Option GoErr

/-- Result of `DirINode.Mkdir`: the DFS path set and children map
after the call, the DFS RPCs issued in order, and the returned
node attributes or error. -/
structure MkdirOut where
  dfs : List String
  children : List (String × AttrsM)
  calls : List DfsCall
  result : Except GoErr AttrsM
deriving Repr

/-- `DirINode.Mkdir`: resolve user and group names; DFS `Mkdir`;
DFS `Chown` (`ChownOp`); on chown failure issue DFS `Remove` as
roll-back (its error is ignored) and surface the chown error; on
success insert a directory child with the request's attributes.
The DFS namespace is modelled as the list of existing paths:
a successful `Mkdir` adds the path, `Remove` erases it. -/
def dirMkdir (dfs : List String) (children : List (String × AttrsM))
    (dirPath name : String) (mode uid gid : Nat) (env : MkdirEnv) : MkdirOut :=
  let p := joinChild dirPath name
  match env.userRes with
  | .error e => ⟨dfs, children, [], .error e⟩
  | .ok userName =>
    match env.groupRes with
    | .error e => ⟨dfs, children, [], .error e⟩
    | .ok groupName =>
      match env.mkdirErr with
      | some e => ⟨dfs, children, [.mkdirC p], .error e⟩
      | none =>
        let dfs1 := p :: dfs
        match env.chownErr with
        | some e =>
            ⟨dfs1.erase p, children, [.mkdirC p, .chownC p, .removeC p],
             .error e⟩
        | none =>
            let a : AttrsM :=
              ⟨name, true, mode, uid, gid, userName, groupName⟩
            ⟨dfs1, upsertChild children name a, [.mkdirC p, .chownC p], .ok a⟩

/-- A DFS `Stat` against the modelled namespace: a missing path is
reported as ENOENT (the hdfs client's `os.ErrNotExist` path error after
`unwrapAndTranslateError`). -/
def statDfs (dfs : List String) (p : String) : Except GoErr Unit :=
  if p ∈ dfs then .ok () else .error (.syscallE .ENOENT)

/-- `DirINode.ReadDirAll` on a successful DFS listing: emit a dirent
(modelled by its name) for each entry whose absolute child path is
allowed, and speculatively cache exactly those entries in the children
map. -/
def readDirAll (ps : List String) (dirPath : String) (listing : List AttrsM)
    (children : List (String × AttrsM)) :
    List String × List (String × AttrsM) :=
  listing.foldl
    (fun acc a =>
      if IsPathAllowed ps (joinChild dirPath a.name) then
        (acc.1 ++ [a.name], upsertChild acc.2 a.name a)
      else acc)
    ([], children)

/-- `DirINode.LookupInt`: reject a disallowed child path with ENOENT
before any DFS call; otherwise serve a cached child, else issue a DFS
`Stat` (`statInodeInHopsFS`), which inserts the child on success and
removes it on failure.  Returns the DFS RPCs issued, the result, and
the children map after the call. -/
def lookupInt (ps : List String) (dirPath name : String)
    (children : List (String × AttrsM)) (dfsStat : Except GoErr AttrsM) :
    List DfsCall × Except GoErr AttrsM × List (String × AttrsM) :=
  if !(IsPathAllowed ps (joinChild dirPath name)) then
    ([], .error (.syscallE .ENOENT), children)
  else
    match children.lookup name with
    | some a => ([], .ok a, children)
    | none =>
        match dfsStat with
        | .ok a =>
            ([.statC (joinChild dirPath name)], .ok a,
             upsertChild children name a)
        | .error e =>
            ([.statC (joinChild dirPath name)], .error e,
             removeChild children name)

/-- Go `now.After(expires)` with time modelled as `Int`. -/
def timeAfter (now expires : Int) : Bool := now > expires

/-- The part of a `DirINode` that `Attr` consults: whether `Parent`
is non-nil and the cached `Attrs.Expires`. -/
structure DirAttrState where
  hasParent : Bool
  expires : Int
deriving DecidableEq, Repr

/-- `DirINode.Attr`: refresh via `Parent.statInodeInHopsFS` only when
the node is non-root and the cached attributes are expired; otherwise
serve from the cache.  Returns (number of DFS stat calls issued,
whether the reply came from the cache). -/
def dirAttr (d : DirAttrState) (now : Int) : Nat × Bool :=
  if d.hasParent && timeAfter now d.expires then (1, false) else (0, true)

/-- The `Expires` field of the root `DirINode` built by
`FileSystem.Root` in `src/unnamed/part_014`: the attribute literal
sets `Inode`, `Uid`, `Gid`, `Mode`, `Mtime`, `Ctime` but not
`Expires`, so it is the Go zero value of `time.Time`, modelled as 0. -/
def rootExpires : Int := 0

/-- The root `DirINode` as built by `FileSystem.Root`: `Parent` nil,
`Expires` the zero value. -/
def rootDirAttrState : DirAttrState :=
  { hasParent := false, expires := rootExpires }

/-! ### `FileINode.Setattr` with a size (truncate) request
(`internal/hopsfsmount/File.go` lines 167-206) -/

/-- Outcome of the `req.Valid.Size()` branch of `FileINode.Setattr`:
how many `handle.Truncate` dispatches were made, the cached
`file.Attrs.Size` after the call, the `resp.Attr.Size` if it was
assigned, and the returned error. -/
structure SetattrSizeOut where
  truncateCalls : Nat
  attrsSize : Nat
  respSize : Option Nat
  result : Option GoErr
deriving DecidableEq, Repr

/-- The `req.Valid.Size()` branch of `FileINode.Setattr`: for each
active handle, dispatch `Truncate` (result injected), recording the
last failure in `err_out`, and assign `resp.Attr.Size` and
`file.Attrs.Size` inside the loop body; return `err_out`. -/
def setattrSize (handleTruncResults : List (Option GoErr))
    (curSize reqSize : Nat) : SetattrSizeOut :=
  handleTruncResults.foldl
    (fun out r =>
      { truncateCalls := out.truncateCalls + 1
        attrsSize := reqSize
        respSize := some reqSize
        result := match r with | some e => some e | none => out.result })
    ⟨0, curSize, none, none⟩

/-! ### `RemoteROFileProxy.ReadAt`
(`internal/hopsfsmount/RemoteFileProxy.go` lines 33-74) -/

/-- Result of the read loop of `ReadAt`: `done n err` when the loop
left with `n` bytes accumulated and `err` the loop's error (nil when
the buffer was filled); `ranOut n` when the injected reader-step list
was exhausted while the Go loop would have read again. -/
inductive LoopOut
  | done (n : Nat) (err : Option GoErr)
  | ranOut (n : Nat)
deriving DecidableEq, Repr

/-- The `for len(b) > 0` loop of `ReadAt`, driven by the successive
results `(m, e)` of `hdfsReader.Read`: accumulate `m` into `n`, shrink
the buffer, stop on the first non-nil error or when the buffer is
full. -/
def readLoop : List (Nat × Option GoErr) → Nat → Nat → LoopOut
  | steps, n, rem =>
    if rem = 0 then .done n none
    else
      match steps with
      | [] => .ranOut n
      | (m, e) :: rest =>
          match e with
          | some err => .done (n + m) (some err)
          | none => readLoop rest (n + m) (rem - m)

/-- `RemoteROFileProxy.ReadAt` with the reader's behaviour injected:
a negative offset returns EINVAL before any seek or read; a failing
`Seek` is returned with 0 bytes; otherwise the read loop runs, and a
final `io.EOF` is suppressed when at least one byte was read.  `none`
when the injected reader-step list was exhausted (never the case for
the readers modelled here). -/
def remoteReadAt (seekRes : Int → Option GoErr)
    (steps : List (Nat × Option GoErr)) (bufLen : Nat) (off : Int) :
    Option (Nat × Option GoErr) :=
  if off < 0 then some (0, some (.syscallE .EINVAL))
  else
    match seekRes off with
    | some e => some (0, some e)
    | none =>
        match readLoop steps 0 bufLen with
        | .done n none => some (n, none)
        | .done n (some e) =>
            if e = .eof && n > 0 then some (n, none) else some (n, some e)
        | .ranOut _ => none

/-- The `Read` results produced by a seekable reader over a remote
file of `size` bytes positioned at `pos`, when asked to fill a buffer
of `bufLen` bytes: data until the end of file, then `io.EOF`. -/
def hdfsFileSteps (size pos bufLen : Nat) : List (Nat × Option GoErr) :=
  if bufLen = 0 then []
  else if size ≤ pos then [(0, some .eof)]
  else if bufLen ≤ size - pos then [(bufLen, none)]
  else [(size - pos, none), (0, some .eof)]

/-- A seek over the modelled remote file always succeeds. -/
def hdfsFileSeek : Int → Option GoErr := fun _ => none

/-! ## Theorems -/

/-- Helper: the `copyToDFS` loop guard is true for every error and
every retry-policy answer, because an error other than `io.EOF`
satisfies the first disjunct and `io.EOF` itself is classified
non-retriable. -/
lemma copyGuard_always_true (err : Option GoErr) (b : Bool) :
    copyGuard err b = true := by
  rcases err with _ | e
  · rfl
  · by_cases h : e = GoErr.eof
    · subst h; cases b <;> rfl
    · simp [copyGuard, h]

/-- Claim C8: the error-translation adapter maps path-wrapped OS errors
by first unwrapping them; os.ErrNotExist to ENOENT, os.ErrPermission to
EPERM, os.ErrExist to EEXIST, os.ErrClosed to EBADF; EOF and
errno-typed errors pass through; everything else becomes EIO — i.e. it
coincides with the spec-side `translateErrorSpec`.  And the
non-retriable errors are exactly the values of `nonRetriableSet` (EOF,
EEXIST in its fuse and syscall representations, ENOENT, EACCES,
ENOTEMPTY, EROFS, EDQUOT, ENOLINK, and the four host-OS sentinels);
every other error is retriable. -/
theorem c8_error_translation_and_retriability :
    (∀ e : GoErr, unwrapAndTranslateError e = translateErrorSpec e) ∧
    (∀ e : GoErr, isNonRetriableError e = true ↔ e ∈ nonRetriableSet) := by
  constructor
  · intro e
    cases e with
    | pathError inner => cases inner <;> rfl
    | _ => rfl
  · intro e
    simp [isNonRetriableError, nonRetriableSet]
    tauto

/-- Claim C2 (code bug): the upload loop of `copyToDFS` never retries.
Its guard is a tautology — the reconnect branch requires the attempt
error to equal `io.EOF`, but `io.EOF` is itself classified
non-retriable — so even a retriable first-attempt error (any error
outside `nonRetriableSet`, e.g. `syscall.EIO`) is returned after
exactly one attempt, with zero connection closes, contradicting the
claimed close-and-retry behaviour. -/
theorem c2_flush_upload_never_retries :
    (∀ (err : Option GoErr) (b : Bool), copyGuard err b = true) ∧
    (∀ (e : GoErr) (rest : List (Option GoErr)) (retryAns : Nat → Bool),
      copyToDFS ⟨2⟩ (some e :: rest) retryAns = (some (1, 0, some e), ⟨2⟩)) ∧
    isNonRetriableError (GoErr.syscallE Errno.EIO) = false := by
  refine ⟨copyGuard_always_true, ?_, rfl⟩
  intro e rest retryAns
  simp [copyToDFS, copyToDFSLoop, copyGuard_always_true]

/-- Claim C1 (counterexample): a handle with `totalBytesWritten = 2`
and no intervening write: the first flush issues one DFS upload and
leaves the counter at 2, and the immediately following flush issues
one more DFS upload (not zero) — two consecutive flushes perform two
uploads, not exactly one. -/
theorem c1_counterexample :
    (flushFH ⟨2⟩ [none] (fun _ => true)).1 = some (1, 0, none) ∧
    (flushFH ⟨2⟩ [none] (fun _ => true)).2 = ⟨2⟩ ∧
    (flushFH (flushFH ⟨2⟩ [none] (fun _ => true)).2 [none]
        (fun _ => true)).1 = some (1, 0, none) := by
  refine ⟨?_, rfl, ?_⟩ <;>
    simp [flushFH, dataChanged, copyToDFS, copyToDFSLoop, copyGuard]

/-- Claim C1 (amended): a flush on a handle whose `totalBytesWritten`
counter is zero performs no DFS operation and returns success; but the
counter is never reset, so every flush on a handle with a positive
counter performs one DFS upload and leaves the counter unchanged —
consecutive flushes with no intervening write each re-upload. -/
theorem c1_flush_zero_noop_counter_never_reset (fh : FHState) :
    (fh.totalBytesWritten = 0 →
      ∀ (res : List (Option GoErr)) (r : Nat → Bool),
        flushFH fh res r = (some (0, 0, none), fh)) ∧
    (0 < fh.totalBytesWritten →
      ∀ r : Nat → Bool,
        flushFH fh [none] r = (some (1, 0, none), fh) ∧
        flushFH (flushFH fh [none] r).2 [none] r =
          (some (1, 0, none), fh)) := by
  constructor
  · intro h res r
    simp [flushFH, dataChanged, copyToDFS, h]
  · intro h r
    have hz : fh.totalBytesWritten ≠ 0 := by omega
    constructor <;>
      simp [flushFH, dataChanged, copyToDFS, copyToDFSLoop, copyGuard, h, hz]

/-- Witness for C1's amended theorem at the handles with counters 0
and 2. -/
theorem c1_witness :
    flushFH ⟨0⟩ [] (fun _ => true) = (some (0, 0, none), ⟨0⟩) ∧
    flushFH ⟨2⟩ [none] (fun _ => true) = (some (1, 0, none), ⟨2⟩) :=
  ⟨(c1_flush_zero_noop_counter_never_reset ⟨0⟩).1 rfl [] (fun _ => true),
   ((c1_flush_zero_noop_counter_never_reset ⟨2⟩).2 (by norm_num)
     (fun _ => true)).1⟩


/-- Helper: the invariant holds for a node with at least one handle
and a present proxy. -/
lemma handleProxyInv_succ_some (h : Nat) (p : Proxy) :
    handleProxyInv { handles := h + 1, fileProxy := some p } := by
  constructor
  · intro _
    simp
  · intro h0
    simp at h0

/-- Helper: the invariant holds for an empty node. -/
lemma handleProxyInv_zero_none :
    handleProxyInv { handles := 0, fileProxy := none } :=
  ⟨fun h => absurd h (by decide), fun _ => rfl⟩

/-- Claim C3 (counterexample): open a file read-only (success), then
let the write upgrade fail at the disk-space check: the resulting
quiescent state has one active handle and a nil `fileProxy`, violating
the claimed invariant. -/
theorem c3_counterexample :
    fileRun initFN [.openOp true, .upgradeOp false true] = ⟨1, none⟩ ∧
    ¬ handleProxyInv ⟨1, none⟩ := by
  refine ⟨rfl, fun h => ?_⟩
  exact absurd rfl (h.1 (by decide))

/-- Claim C3 (amended): the handle/proxy invariant — a node with at
least one handle has a proxy, a node with none has nil — is preserved
by every open, create and release (successful or failing) and by every
successful write upgrade; only a failing write upgrade can break it,
leaving a handle-holding node with a nil proxy. -/
theorem c3_handle_proxy_invariant (s : FNState) (op : FileOp)
    (hinv : handleProxyInv s) (hop : upgradeSucceeds op) :
    handleProxyInv (fileStep s op).1 := by
  obtain ⟨h1, h2⟩ := hinv
  cases op with
  | openOp ok =>
      rcases hp : s.fileProxy with _ | p
      · cases ok
        · simp only [fileStep, stepOpen, hp]
          exact ⟨h1, h2⟩
        · simp only [fileStep, stepOpen, hp]
          exact handleProxyInv_succ_some s.handles .remoteRO
      · simp only [fileStep, stepOpen, hp]
        exact handleProxyInv_succ_some s.handles p
  | createOp ok =>
      rcases hp : s.fileProxy with _ | p
      · cases ok
        · simp only [fileStep, stepCreate, hp]
          exact ⟨h1, h2⟩
        · simp only [fileStep, stepCreate, hp]
          exact handleProxyInv_succ_some s.handles .localRW
      · simp only [fileStep, stepCreate, hp]
        exact ⟨h1, h2⟩
  | upgradeOp d st =>
      obtain ⟨hd, hst⟩ := hop
      subst hd; subst hst
      rcases hp : s.fileProxy with _ | p
      · simp only [fileStep, stepUpgrade, hp]
        exact ⟨h1, h2⟩
      · cases p
        · simp only [fileStep, stepUpgrade, hp]
          exact ⟨h1, h2⟩
        · have hne : s.handles ≠ 0 := by
            intro h0
            rw [h2 h0] at hp
            exact Option.noConfusion hp
          simp only [fileStep, stepUpgrade, hp, if_true]
          constructor
          · intro _
            simp
          · intro h0
            exact absurd h0 hne
  | releaseOp =>
      by_cases h0 : s.handles - 1 = 0
      · rcases hp : s.fileProxy with _ | p <;>
          simp only [fileStep, stepRelease, h0, if_pos, hp] <;>
          exact handleProxyInv_zero_none
      · rcases hp : s.fileProxy with _ | p
        · exact absurd hp (h1 (by omega))
        · simp only [fileStep, stepRelease, h0, if_neg, hp]
          constructor
          · intro _
            simp [hp]
          · intro hh
            exact absurd hh h0

/-- Witness for C3's amended theorem: the invariant holds for a fresh
node and is preserved by a successful create. -/
theorem c3_witness :
    handleProxyInv (fileStep initFN (FileOp.createOp true)).1 :=
  c3_handle_proxy_invariant initFN (FileOp.createOp true)
    ⟨fun h => absurd h (by decide), fun _ => rfl⟩ trivial

/-- Claim C4: every `fileProxy` assignment of any FileINode operation
(open, create, write upgrade, release) is either value-preserving or a
transition in the allowed set (None to RemoteRO, None to LocalRW,
RemoteRO to LocalRW, anything to None); in particular no assignment
replaces a LocalRW proxy with a RemoteRO proxy. -/
theorem c4_proxy_transitions_allowed (s : FNState) (op : FileOp) :
    ∀ a ∈ (fileStep s op).2.2,
      allowedTransition a ∧
      ¬(a.1 = some Proxy.localRW ∧ a.2 = some Proxy.remoteRO) := by
  intro a ha
  cases op with
  | openOp ok =>
      rcases hp : s.fileProxy with _ | p
      · cases ok
        · simp [fileStep, stepOpen, hp] at ha
        · simp [fileStep, stepOpen, hp] at ha
          subst ha
          decide
      · simp [fileStep, stepOpen, hp] at ha
        subst ha
        cases p <;> decide
  | createOp ok =>
      rcases hp : s.fileProxy with _ | p
      · cases ok
        · simp [fileStep, stepCreate, hp] at ha
        · simp [fileStep, stepCreate, hp] at ha
          subst ha
          decide
      · simp [fileStep, stepCreate, hp] at ha
  | upgradeOp d st =>
      rcases hp : s.fileProxy with _ | p
      · simp [fileStep, stepUpgrade, hp] at ha
      · cases p
        · simp [fileStep, stepUpgrade, hp] at ha
        · cases d
          · simp [fileStep, stepUpgrade, hp] at ha
            subst ha
            decide
          · cases st
            · simp [fileStep, stepUpgrade, hp] at ha
              subst ha
              decide
            · simp [fileStep, stepUpgrade, hp] at ha
              rcases ha with rfl | rfl <;> decide
  | releaseOp =>
      by_cases h0 : s.handles - 1 = 0
      · rcases hp : s.fileProxy with _ | p
        · simp [fileStep, stepRelease, h0, hp] at ha
        · simp [fileStep, stepRelease, h0, hp] at ha
          subst ha
          cases p <;> decide
      · simp [fileStep, stepRelease, h0] at ha

/-- Witness for C4 at a concrete assignment: the read-only open of a
fresh node installs a RemoteRO proxy over a nil one. -/
theorem c4_witness :
    allowedTransition (none, some Proxy.remoteRO) ∧
    ¬(((none, some Proxy.remoteRO) : ProxyAssign).1 = some Proxy.localRW ∧
      ((none, some Proxy.remoteRO) : ProxyAssign).2 = some Proxy.remoteRO) :=
  c4_proxy_transitions_allowed initFN (FileOp.openOp true)
    (none, some Proxy.remoteRO) (by simp [fileStep, stepOpen, initFN])

/-- Claim C5: in `DirINode.Mkdir` the DFS `Mkdir` precedes the DFS
`Chown`; when the chown fails, a DFS `Remove` of the new directory is
issued as roll-back, no child is inserted into the parent's children
map, the chown error is surfaced, and (the path not having existed
before) a subsequent DFS `Stat` of the path yields ENOENT; only on
success is a directory child with the provided attributes inserted. -/
theorem c5_mkdir_chown_failure_rollback
    (dfs : List String) (children : List (String × AttrsM))
    (dirPath name : String) (mode uid gid : Nat)
    (userName groupName : String) (e : GoErr)
    (hnew : joinChild dirPath name ∉ dfs) :
    (dirMkdir dfs children dirPath name mode uid gid
        ⟨.ok userName, .ok groupName, none, some e⟩ =
      ⟨dfs, children,
       [.mkdirC (joinChild dirPath name), .chownC (joinChild dirPath name),
        .removeC (joinChild dirPath name)], .error e⟩) ∧
    (statDfs (dirMkdir dfs children dirPath name mode uid gid
        ⟨.ok userName, .ok groupName, none, some e⟩).dfs
      (joinChild dirPath name) = .error (.syscallE .ENOENT)) ∧
    (dirMkdir dfs children dirPath name mode uid gid
        ⟨.ok userName, .ok groupName, none, none⟩ =
      ⟨joinChild dirPath name :: dfs,
       upsertChild children name
         ⟨name, true, mode, uid, gid, userName, groupName⟩,
       [.mkdirC (joinChild dirPath name), .chownC (joinChild dirPath name)],
       .ok ⟨name, true, mode, uid, gid, userName, groupName⟩⟩) := by
  refine ⟨?_, ?_, rfl⟩
  · simp [dirMkdir, List.erase_cons_head]
  · simp [dirMkdir, List.erase_cons_head, statDfs, hnew]

/-- Witness for C5 at the spec's scenario: a fresh DFS namespace, an
injected chown failure for the new directory `/d`. -/
theorem c5_witness :
    (dirMkdir [] [] "/" "d" 7 0 0
        ⟨.ok "u", .ok "g", none, some (.syscallE .EPERM)⟩ =
      ⟨[], [], [.mkdirC "/d", .chownC "/d", .removeC "/d"],
       .error (.syscallE .EPERM)⟩) ∧
    (statDfs (dirMkdir [] [] "/" "d" 7 0 0
        ⟨.ok "u", .ok "g", none, some (.syscallE .EPERM)⟩).dfs "/d" =
      .error (.syscallE .ENOENT)) ∧
    (dirMkdir [] [] "/" "d" 7 0 0 ⟨.ok "u", .ok "g", none, none⟩ =
      ⟨["/d"], [("d", ⟨"d", true, 7, 0, 0, "u", "g"⟩)],
       [.mkdirC "/d", .chownC "/d"], .ok ⟨"d", true, 7, 0, 0, "u", "g"⟩⟩) := by
  have h := c5_mkdir_chown_failure_rollback [] [] "/" "d" 7 0 0 "u" "g"
    (.syscallE .EPERM) (by simp)
  simpa [joinChild, upsertChild] using h

/-- Helper: looking up the upserted key finds the new attributes. -/
lemma upsertChild_lookup_self (c : List (String × AttrsM)) (n : String)
    (a : AttrsM) : (upsertChild c n a).lookup n = some a := by
  induction c with
  | nil => simp [upsertChild, List.lookup]
  | cons hd tl ih =>
      rcases hd with ⟨k, b⟩
      by_cases h : k = n
      · simp [upsertChild, h, List.lookup]
      · simp only [upsertChild, h, if_false, List.lookup]
        have : (n == k) = false := by
          simp [Ne.symm h]
        simp [this, ih]

/-- Helper: upserting one key leaves lookups of other keys unchanged. -/
lemma upsertChild_lookup_ne (c : List (String × AttrsM)) (n m : String)
    (a : AttrsM) (h : m ≠ n) :
    (upsertChild c n a).lookup m = c.lookup m := by
  have hbeq : (m == n) = false := by
    simp [h]
  induction c with
  | nil => simp [upsertChild, List.lookup, hbeq]
  | cons hd tl ih =>
      rcases hd with ⟨k, b⟩
      by_cases hk : k = n
      · subst hk
        simp only [upsertChild, if_pos rfl, List.lookup]
        have : (m == k) = false := by
          simp [h]
        simp [this]
      · simp only [upsertChild, hk, if_false, List.lookup]
        by_cases hmk : m = k
        · simp [hmk]
        · have : (m == k) = false := by
            simp [hmk]
          simp [this, ih]

/-- Helper: the dirent list accumulated by the `ReadDirAll` fold is the
accumulator followed by the names of the allowed entries. -/
lemma readDirAll_fold_entries (ps : List String) (dirPath : String)
    (listing : List AttrsM) (es : List String) (cs : List (String × AttrsM)) :
    (listing.foldl
      (fun acc a =>
        if IsPathAllowed ps (joinChild dirPath a.name) then
          (acc.1 ++ [a.name], upsertChild acc.2 a.name a)
        else acc)
      (es, cs)).1 =
    es ++ (listing.filter
      (fun a => IsPathAllowed ps (joinChild dirPath a.name))).map
      (fun a => a.name) := by
  induction listing generalizing es cs with
  | nil => simp
  | cons a tl ih =>
      by_cases h : IsPathAllowed ps (joinChild dirPath a.name)
      · simp [h, ih]
      · simp [h, ih]

/-- Helper: the `ReadDirAll` fold never removes a cached key. -/
lemma readDirAll_fold_lookup_isSome (ps : List String) (dirPath : String)
    (listing : List AttrsM) (es : List String) (cs : List (String × AttrsM))
    (m : String) (h : (cs.lookup m).isSome = true) :
    (((listing.foldl
      (fun acc a =>
        if IsPathAllowed ps (joinChild dirPath a.name) then
          (acc.1 ++ [a.name], upsertChild acc.2 a.name a)
        else acc)
      (es, cs)).2).lookup m).isSome = true := by
  induction listing generalizing es cs with
  | nil => simpa using h
  | cons a tl ih =>
      by_cases ha : IsPathAllowed ps (joinChild dirPath a.name)
      · simp only [List.foldl_cons, ha, if_true]
        apply ih
        by_cases hm : m = a.name
        · subst hm
          simp [upsertChild_lookup_self]
        · rw [upsertChild_lookup_ne _ _ _ _ hm]
          exact h
      · simp only [List.foldl_cons, ha, if_false]
        exact ih es cs h

/-- Helper: every allowed listing entry ends up cached by the
`ReadDirAll` fold. -/
lemma readDirAll_fold_mem_cached (ps : List String) (dirPath : String)
    (listing : List AttrsM) (es : List String) (cs : List (String × AttrsM))
    (a : AttrsM) (hmem : a ∈ listing)
    (ha : IsPathAllowed ps (joinChild dirPath a.name) = true) :
    (((listing.foldl
      (fun acc b =>
        if IsPathAllowed ps (joinChild dirPath b.name) then
          (acc.1 ++ [b.name], upsertChild acc.2 b.name b)
        else acc)
      (es, cs)).2).lookup a.name).isSome = true := by
  induction listing generalizing es cs with
  | nil => cases hmem
  | cons b tl ih =>
      rcases List.mem_cons.mp hmem with rfl | hmem
      · simp only [List.foldl_cons, ha, if_true]
        apply readDirAll_fold_lookup_isSome
        simp [upsertChild_lookup_self]
      · by_cases hb : IsPathAllowed ps (joinChild dirPath b.name)
        · simp only [List.foldl_cons, hb, if_true]
          exact ih _ _ hmem
        · simp only [List.foldl_cons, hb, if_false]
          exact ih _ _ hmem

/-- Helper: names that no allowed listing entry carries are cached
exactly as before the fold. -/
lemma readDirAll_fold_lookup_frame (ps : List String) (dirPath : String)
    (listing : List AttrsM) (es : List String) (cs : List (String × AttrsM))
    (m : String)
    (h : ∀ a ∈ listing, a.name = m →
      IsPathAllowed ps (joinChild dirPath a.name) = false) :
    (((listing.foldl
      (fun acc a =>
        if IsPathAllowed ps (joinChild dirPath a.name) then
          (acc.1 ++ [a.name], upsertChild acc.2 a.name a)
        else acc)
      (es, cs)).2).lookup m) = cs.lookup m := by
  induction listing generalizing es cs with
  | nil => simp
  | cons a tl ih =>
      by_cases hb : IsPathAllowed ps (joinChild dirPath a.name)
      · have hne : m ≠ a.name := by
          intro hm
          have := h a (List.mem_cons_self a tl) hm.symm
          rw [this] at hb
          cases hb
        simp only [List.foldl_cons, hb, if_true]
        rw [ih _ _ (fun b hbmem hbm => h b (List.mem_cons_of_mem a hbmem) hbm)]
        exact upsertChild_lookup_ne _ _ _ _ hne
      · simp only [List.foldl_cons, hb, if_false]
        exact ih _ _ (fun b hbmem hbm => h b (List.mem_cons_of_mem a hbmem) hbm)

/-- Claim C6: the allow-list predicate holds exactly for the root path
or paths matched by some configured entry (a star, an exact match of
slash-entry, or an extension of slash-entry-slash); a readdir returns
as dirents exactly the DFS entries whose absolute child path is
allowed and caches exactly those as children (other names are cached
as before); and a lookup of a name whose child path is not allowed
returns ENOENT without issuing any DFS call. -/
theorem c6_readdir_allowlist_filter
    (ps : List String) (dirPath : String) (listing : List AttrsM)
    (children : List (String × AttrsM)) (n : String)
    (dfsStat : Except GoErr AttrsM) :
    (∀ p : String,
      IsPathAllowed ps p = true ↔
        (p = "/" ∨ ∃ q ∈ ps, q = "*" ∨ "/" ++ q = p ∨
          goHasPre p ("/" ++ q ++ "/") = true)) ∧
    ((readDirAll ps dirPath listing children).1 =
      (listing.filter
        (fun a => IsPathAllowed ps (joinChild dirPath a.name))).map
        (fun a => a.name)) ∧
    (∀ a ∈ listing, IsPathAllowed ps (joinChild dirPath a.name) = true →
      ((((readDirAll ps dirPath listing children).2).lookup a.name).isSome
        = true)) ∧
    (∀ m : String,
      (∀ a ∈ listing, a.name = m →
        IsPathAllowed ps (joinChild dirPath a.name) = false) →
      ((readDirAll ps dirPath listing children).2).lookup m =
        children.lookup m) ∧
    (IsPathAllowed ps (joinChild dirPath n) = false →
      lookupInt ps dirPath n children dfsStat =
        ([], .error (.syscallE .ENOENT), children)) := by
  refine ⟨?_, ?_, ?_, ?_, ?_⟩
  · intro p
    by_cases h : p = "/"
    · simp [IsPathAllowed, h]
    · simp only [IsPathAllowed, h, if_false, List.any_eq_true,
        Bool.or_eq_true, decide_eq_true_eq, false_or, or_assoc]
  · exact readDirAll_fold_entries ps dirPath listing [] children
  · intro a hmem ha
    exact readDirAll_fold_mem_cached ps dirPath listing [] children a hmem ha
  · intro m hm
    exact readDirAll_fold_lookup_frame ps dirPath listing [] children m hm
  · intro h
    simp [lookupInt, h]

/-- Witness for C6 at the spec's readdir-filter scenario: configured
entries foo and bar, a root listing of qux, foo, bar, foobar, baz. -/
theorem c6_witness :
    (readDirAll ["foo", "bar"] "/"
      [⟨"qux", false, 0, 0, 0, "", ""⟩, ⟨"foo", false, 0, 0, 0, "", ""⟩,
       ⟨"bar", false, 0, 0, 0, "", ""⟩, ⟨"foobar", false, 0, 0, 0, "", ""⟩,
       ⟨"baz", false, 0, 0, 0, "", ""⟩] []).1 = ["foo", "bar"] ∧
    lookupInt ["foo", "bar"] "/" "qux" [] (.error (.syscallE Errno.EIO)) =
      ([], .error (.syscallE .ENOENT), []) := by
  constructor
  · rw [(c6_readdir_allowlist_filter ["foo", "bar"] "/"
      [⟨"qux", false, 0, 0, 0, "", ""⟩, ⟨"foo", false, 0, 0, 0, "", ""⟩,
       ⟨"bar", false, 0, 0, 0, "", ""⟩, ⟨"foobar", false, 0, 0, 0, "", ""⟩,
       ⟨"baz", false, 0, 0, 0, "", ""⟩] [] "qux"
      (.error (.syscallE Errno.EIO))).2.1]
    decide
  · exact (c6_readdir_allowlist_filter ["foo", "bar"] "/"
      [⟨"qux", false, 0, 0, 0, "", ""⟩, ⟨"foo", false, 0, 0, 0, "", ""⟩,
       ⟨"bar", false, 0, 0, 0, "", ""⟩, ⟨"foobar", false, 0, 0, 0, "", ""⟩,
       ⟨"baz", false, 0, 0, 0, "", ""⟩] [] "qux"
      (.error (.syscallE Errno.EIO))).2.2.2.2 (by decide)

/-- Claim C7: `RemoteROFileProxy.ReadAt` returns EINVAL for every
negative offset without consulting the reader; a failing seek is
surfaced with zero bytes; when the loop ends at EOF with at least one
byte read, the bytes are returned with no error; and over a remote
file of a given size, a read at a valid non-negative offset fills the
buffer up to the end of file and reports no error, having seeked to
the offset first. -/
theorem c7_remote_readAt_loop :
    (∀ (seekRes : Int → Option GoErr) (steps : List (Nat × Option GoErr))
        (bufLen : Nat) (off : Int), off < 0 →
      remoteReadAt seekRes steps bufLen off =
        some (0, some (.syscallE .EINVAL))) ∧
    (∀ (seekRes : Int → Option GoErr) (steps : List (Nat × Option GoErr))
        (bufLen : Nat) (off : Int) (e : GoErr), 0 ≤ off →
      seekRes off = some e →
      remoteReadAt seekRes steps bufLen off = some (0, some e)) ∧
    (∀ (seekRes : Int → Option GoErr) (steps : List (Nat × Option GoErr))
        (bufLen n : Nat) (off : Int), 0 ≤ off → seekRes off = none →
      readLoop steps 0 bufLen = .done n (some .eof) → 0 < n →
      remoteReadAt seekRes steps bufLen off = some (n, none)) ∧
    (∀ (size bufLen : Nat) (off : Int), 0 ≤ off → off.toNat < size →
      remoteReadAt hdfsFileSeek (hdfsFileSteps size off.toNat bufLen) bufLen
        off = some (min bufLen (size - off.toNat), none)) := by
  refine ⟨?_, ?_, ?_, ?_⟩
  · intro seekRes steps bufLen off h
    simp [remoteReadAt, h]
  · intro seekRes steps bufLen off e h hs
    simp [remoteReadAt, not_lt.mpr h, hs]
  · intro seekRes steps bufLen n off h hs hloop hn
    simp [remoteReadAt, not_lt.mpr h, hs, hloop, hn]
  · intro size bufLen off h0 hlt
    have hnn : ¬ off < 0 := not_lt.mpr h0
    by_cases hb : bufLen = 0
    · subst hb
      simp [remoteReadAt, hnn, hdfsFileSeek, hdfsFileSteps, readLoop]
    · by_cases hfits : bufLen ≤ size - off.toNat
      · have hsteps : hdfsFileSteps size off.toNat bufLen = [(bufLen, none)] := by
          simp [hdfsFileSteps, hb, Nat.not_le.mpr hlt, hfits]
        have hloop : readLoop [(bufLen, none)] 0 bufLen = .done bufLen none := by
          rw [readLoop]
          simp only [hb, if_false]
          rw [readLoop]
          simp
        simp [remoteReadAt, hnn, hdfsFileSeek, hsteps, hloop,
          Nat.min_eq_left hfits]
      · have hr : size - off.toNat < bufLen := Nat.lt_of_not_le hfits
        have hpos : 0 < size - off.toNat := Nat.sub_pos_of_lt hlt
        have hsteps : hdfsFileSteps size off.toNat bufLen =
            [(size - off.toNat, none), (0, some .eof)] := by
          simp [hdfsFileSteps, hb, Nat.not_le.mpr hlt, hfits]
        have hrem : bufLen - (size - off.toNat) ≠ 0 :=
          Nat.sub_ne_zero_of_lt hr
        have hloop : readLoop [(size - off.toNat, none), (0, some .eof)]
            0 bufLen = .done (size - off.toNat) (some .eof) := by
          rw [readLoop]
          simp only [hb, if_false]
          rw [readLoop]
          simp only [hrem, if_false]
          simp
        simp [remoteReadAt, hnn, hdfsFileSeek, hsteps, hloop, hpos,
          Nat.min_eq_right (le_of_lt hr)]

/-- Witness for C7: a 10-byte file read at offset 4 with a 16-byte
buffer returns the 6 remaining bytes with no error; a negative offset
returns EINVAL; a failing seek and an EOF-terminated loop behave as
stated. -/
theorem c7_witness :
    remoteReadAt hdfsFileSeek (hdfsFileSteps 10 4 16) 16 4 =
      some (6, none) ∧
    remoteReadAt hdfsFileSeek [] 16 (-1) =
      some (0, some (.syscallE .EINVAL)) ∧
    remoteReadAt (fun _ => some (.syscallE Errno.EIO)) [] 16 0 =
      some (0, some (.syscallE Errno.EIO)) ∧
    remoteReadAt hdfsFileSeek [(3, some .eof)] 8 0 = some (3, none) := by
  refine ⟨?_, ?_, ?_, ?_⟩
  · have h := c7_remote_readAt_loop.2.2.2 10 16 4 (by norm_num) (by norm_num)
    simpa using h
  · exact c7_remote_readAt_loop.1 hdfsFileSeek [] 16 (-1) (by norm_num)
  · exact c7_remote_readAt_loop.2.1 (fun _ => some (.syscallE Errno.EIO)) [] 16 0
      (.syscallE Errno.EIO) (by norm_num) rfl
  · exact c7_remote_readAt_loop.2.2.1 hdfsFileSeek [(3, some .eof)] 8 3 0
      (by norm_num) rfl (by decide) (by norm_num)

/-- Claim C9 (counterexample): the root inode's `Expires` is the zero
time, not plus-infinity, and already at time 1 the staleness predicate
`now.After(expires)` used by `Attr` holds for the root's cached
attributes — they are expired, not eternally fresh. -/
theorem c9_counterexample :
    rootDirAttrState.expires = 0 ∧
    timeAfter 1 rootDirAttrState.expires = true := by
  constructor <;> rfl

/-- Claim C9 (amended): the root's `Expires` is the zero time rather
than plus-infinity, yet a getattr of the root never issues a DFS stat
via a parent refresh at any time, because the refresh branch of
`DirINode.Attr` also requires a non-nil parent; every getattr of the
root is served from the cache. -/
theorem c9_root_attr_served_from_cache (now : Int) :
    dirAttr rootDirAttrState now = (0, true) := rfl

/-- Claim C10: a size-setting `Setattr` on a file with no active
handles dispatches no truncate, leaves the cached size unchanged,
never assigns the response size, and returns success. -/
theorem c10_setattr_size_no_handles (curSize reqSize : Nat) :
    setattrSize [] curSize reqSize =
      { truncateCalls := 0, attrsSize := curSize,
        respSize := none, result := none } := rfl
